import Mathlib

/-!
Verification of the tiendaVideoJuegos backend checkout core.

A shallow embedding, in Lean 4, of the order-checkout core of the
tiendaVideoJuegos backend (TypeScript).  Monetary values and prices are
modelled as rationals (`ℚ`), quantities and stock counts as integers
(`Int`, matching the unconstrained JS `number` used as an integer),
timestamps as `Nat`, and thrown exceptions as `Except` results.  JS `Map`
objects (which preserve insertion order and have unique keys) are
modelled as association lists in insertion order.

Embedded components:
* `ProductIndex` (src/core/structures/ProductIndex.ts)
* `LRUCache` (src/core/structures/LRUCache.ts)
* the shipping strategies (src/core/patterns/strategy/*.ts)
* `CheckoutFacade` (src/core/patterns/facade/CheckoutFacade.ts) together
  with the attached `EmailObserver` and `InventoryObserver`
* the `Order` entity (src/features/pedidos/domain/order.entity.ts)
* the cache discipline of `OrderService`
  (src/features/pedidos/application/order.service.ts)
-/

set_option autoImplicit false


-- ====================================================================
-- ProductIndex  (src/core/structures/ProductIndex.ts)
-- ====================================================================

/-- A product record held by the in-memory index.  In the source the
`precio` field is a decimal string coming from MySQL and is parsed with
`parseFloat` wherever it is used numerically; we model it directly by the
rational number it denotes.  Fields not consulted by the embedded
operations (`consola`, `categoria`, `descripcion`, `imagen_url`) are
omitted. -/
structure Product where
  id : String
  nombre : String
  precio : ℚ
  stock : Int
deriving DecidableEq, Repr

/-- The `ProductIndex` HashMap: a JS `Map` from product id to product,
modelled as an association list in insertion order. -/
abbrev ProductIndex : Type := List (String × Product)

/-- First-match association-list lookup (the semantics of `Map.get`,
keys being unique in a `Map`). -/
def lookupKey {K V : Type} [DecidableEq K] : List (K × V) → K → Option V
  | [], _ => none
  | (k, v) :: rest, key => if k = key then some v else lookupKey rest key

/-- The `ProductIndex.get`: `Map.get` on the index. -/
def ProductIndex.get (idx : ProductIndex) (id : String) : Option Product :=
  lookupKey idx id

/-- The `Map.set`: for a key already present the value is replaced in place
(the entry keeps its position); a fresh key is appended at the end. -/
def mapSet {K V : Type} [DecidableEq K] (l : List (K × V)) (key : K)
    (value : V) : List (K × V) :=
  match l with
  | [] => [(key, value)]
  | (k, v) :: rest =>
    if k = key then (k, value) :: rest else (k, v) :: mapSet rest key value

/-- The `ProductIndex.update`: stores a product under an id (`Map.set`). -/
def ProductIndex.update (idx : ProductIndex) (id : String) (product : Product) :
    ProductIndex :=
  mapSet idx id product

/-- The `ProductIndex.validateStock`: true iff the product exists and its
stock covers the requested quantity. -/
def ProductIndex.validateStock (idx : ProductIndex) (productId : String)
    (quantity : Int) : Bool :=
  match ProductIndex.get idx productId with
  | none => false
  | some product => decide (product.stock ≥ quantity)

/-- The `ProductIndex.reduceStock`: check-and-subtract on the indexed stock.
Returns `false` (leaving the index as is) when the product is absent or
the stock is insufficient, otherwise decrements the stock and returns
`true`.  The TS method mutates the index; we return the new index. -/
def ProductIndex.reduceStock (idx : ProductIndex) (productId : String)
    (quantity : Int) : Bool × ProductIndex :=
  match ProductIndex.get idx productId with
  | none => (false, idx)
  | some product =>
    if product.stock < quantity then
      (false, idx)
    else
      (true, ProductIndex.update idx productId
        { product with stock := product.stock - quantity })

-- ====================================================================
-- Shipping strategies  (src/core/patterns/strategy/*.ts)
-- ====================================================================

/-- An order line as seen by the shipping strategies
(src/core/patterns/strategy/IShippingStrategy.ts). -/
structure OrderItem where
  producto_id : String
  cantidad : Int
  precio_unitario : ℚ
deriving DecidableEq, Repr

/-- The `StandardShipping.calculateCost`: throws on an empty cart, otherwise
the flat `STANDARD_COST = 5000`. -/
def StandardShipping.calculateCost (items : List OrderItem) : Except String ℚ :=
  if items.isEmpty then
    Except.error "El pedido debe contener al menos un producto"
  else
    Except.ok 5000

/-- The `ExpressShipping.calculateCost`: throws on an empty cart, otherwise
the flat `EXPRESS_COST = 15000`. -/
def ExpressShipping.calculateCost (items : List OrderItem) : Except String ℚ :=
  if items.isEmpty then
    Except.error "El pedido debe contener al menos un producto"
  else
    Except.ok 15000

/-- The `StorePickup.calculateCost`: throws on an empty cart, otherwise the
flat `PICKUP_COST = 0`. -/
def StorePickup.calculateCost (items : List OrderItem) : Except String ℚ :=
  if items.isEmpty then
    Except.error "El pedido debe contener al menos un producto"
  else
    Except.ok 0

/-- The three shipping modes of `ShippingStrategyFactory.ShippingType`. -/
inductive ShippingType where
  | standard
  | express
  | pickup
deriving DecidableEq, Repr

/-- The `ShippingStrategyFactory.create` followed by `calculateCost`: the
strategy dispatch of the factory. -/
def ShippingStrategyFactory.cost (type : ShippingType) (items : List OrderItem) :
    Except String ℚ :=
  match type with
  | .standard => StandardShipping.calculateCost items
  | .express => ExpressShipping.calculateCost items
  | .pickup => StorePickup.calculateCost items

-- ====================================================================
-- Discounts  (CheckoutFacade, src/core/patterns/facade/CheckoutFacade.ts)
-- ====================================================================

/-- Discount type tag: `'percentage' | 'fixed'`. -/
inductive DiscountType where
  | percentage
  | fixed
deriving DecidableEq, Repr

/-- A `Discount` of the checkout facade. -/
structure Discount where
  type : DiscountType
  value : ℚ
  nombre : String
deriving DecidableEq, Repr

/-- The `CheckoutFacade.applyDiscountsRecursive`: folds the discount list over
the running total.  A percentage discount subtracts `total * value / 100`
from the current running amount, a fixed discount subtracts `value`.
There is no clamping anywhere in the source. -/
def CheckoutFacade.applyDiscountsRecursive (total : ℚ) :
    List Discount → ℚ
  | [] => total
  | first :: rest =>
    let newTotal :=
      match first.type with
      | .percentage => total - total * first.value / 100
      | .fixed => total - first.value
    CheckoutFacade.applyDiscountsRecursive newTotal rest

/-- A cart line of the checkout (`CheckoutItem`). -/
structure CheckoutItem where
  producto_id : String
  cantidad : Int
deriving DecidableEq, Repr

/-- The `CheckoutFacade.getAutomaticDiscounts`.  The order count for the user
(a database read in the source) and the day of week (`new Date().getDay()`)
enter as parameters; rule order follows the source. -/
def CheckoutFacade.getAutomaticDiscounts (orderCount : Nat) (subtotal : ℚ)
    (productos : List CheckoutItem) (today : Nat) : List Discount :=
  let d1 : List Discount :=
    if orderCount = 0 then
      [⟨.percentage, 10, "Bienvenida - Primera compra"⟩] else []
  let d2 : List Discount :=
    if subtotal > 500000 then
      [⟨.percentage, 5, "Compra Mayor a $500,000"⟩] else []
  let d3 : List Discount :=
    if today = 1 then
      [⟨.fixed, 10000, "Lunes de Descuento"⟩] else []
  let totalProductos : Int := productos.foldl (fun sum p => sum + p.cantidad) 0
  let d4 : List Discount :=
    if totalProductos ≥ 5 then
      [⟨.percentage, 3, "Compra por Volumen (5+ productos)"⟩] else []
  let d5 : List Discount :=
    if orderCount ≥ 5 then
      [⟨.percentage, 5, "Cliente Frecuente"⟩] else []
  d1 ++ d2 ++ d3 ++ d4 ++ d5

-- ====================================================================
-- Order entity  (src/features/pedidos/domain/order.entity.ts)
-- ====================================================================

/-- The `OrderStatus` (src/features/pedidos/domain/order.types.ts). -/
inductive OrderStatus where
  | procesando
  | enviado
  | completado
  | cancelado
deriving DecidableEq, Repr

/-- The `ShippingMethod` of order.types.ts. -/
inductive ShippingMethod where
  | standard
  | express
  | pickup
deriving DecidableEq, Repr

/-- One record of the order's status history (`OrderStatusHistory`);
`fecha` is a timestamp. -/
structure OrderStatusHistory where
  estado : OrderStatus
  fecha : Nat
  usuario_admin : Option String
deriving DecidableEq, Repr

/-- A line item of an order (`OrderItemData`), restricted to the fields
the entity consults. -/
structure OrderItemData where
  producto_id : String
  cantidad : Int
  precio_unitario : ℚ
deriving DecidableEq, Repr

/-- The raw `OrderData` record handed to the `Order` factory methods.
It carries no status history: the source interface has no such field. -/
structure OrderData where
  id : String
  usuario_id : String
  subtotal : ℚ
  costo_envio : ℚ
  total : ℚ
  estado : OrderStatus
  metodo_envio : ShippingMethod
  direccion_envio : String
  fecha_pedido : Nat
  detalles : Option (List OrderItemData)
deriving DecidableEq, Repr

/-- The `Order` entity's private state. -/
structure Order where
  id : String
  usuario_id : String
  subtotal : ℚ
  costo_envio : ℚ
  total : ℚ
  estado : OrderStatus
  metodo_envio : ShippingMethod
  direccion_envio : String
  fecha_pedido : Nat
  detalles : List OrderItemData
  historial_estados : List OrderStatusHistory
deriving DecidableEq, Repr

/-- The private `Order` constructor: copies the data fields and seeds the
status history with the single record `{estado: data.estado, fecha:
data.fecha_pedido}` (no admin on the seed record). -/
def Order.ofData (data : OrderData) : Order :=
  { id := data.id
    usuario_id := data.usuario_id
    subtotal := data.subtotal
    costo_envio := data.costo_envio
    total := data.total
    estado := data.estado
    metodo_envio := data.metodo_envio
    direccion_envio := data.direccion_envio
    fecha_pedido := data.fecha_pedido
    detalles := data.detalles.getD []
    historial_estados := [⟨data.estado, data.fecha_pedido, none⟩] }

/-- The `Order.fromDatabase` just invokes the constructor. -/
def Order.fromDatabase (data : OrderData) : Order :=
  Order.ofData data

/-- The `Partial<OrderData>` given to `Order.create`: every field
optional. -/
structure PartialOrderData where
  id : Option String
  usuario_id : Option String
  subtotal : Option ℚ
  costo_envio : Option ℚ
  total : Option ℚ
  metodo_envio : Option ShippingMethod
  direccion_envio : Option String
  detalles : Option (List OrderItemData)
deriving DecidableEq, Repr

/-- The `Order.create`: fills the defaults of the source (`|| ''`, `|| 0`,
status `PROCESANDO`, `fecha_pedido = now`) and calls the constructor.
`now` (`new Date()`) enters as a parameter. -/
def Order.create (data : PartialOrderData) (now : Nat) : Order :=
  Order.ofData
    { id := data.id.getD ""
      usuario_id := data.usuario_id.getD ""
      subtotal := data.subtotal.getD 0
      costo_envio := data.costo_envio.getD 0
      total := data.total.getD 0
      estado := .procesando
      metodo_envio := data.metodo_envio.getD .standard
      direccion_envio := data.direccion_envio.getD ""
      fecha_pedido := now
      detalles := some (data.detalles.getD []) }

/-- The transition table of `Order.esTransicionValida`. -/
def transicionesValidas : OrderStatus → List OrderStatus
  | .procesando => [.enviado, .cancelado]
  | .enviado => [.completado, .cancelado]
  | .completado => []
  | .cancelado => []

/-- The `Order.esTransicionValida`. -/
def Order.esTransicionValida (estadoActual nuevoEstado : OrderStatus) : Bool :=
  (transicionesValidas estadoActual).contains nuevoEstado

/-- Printable status names, for the error message of `cambiarEstado`. -/
def OrderStatus.text : OrderStatus → String
  | .procesando => "procesando"
  | .enviado => "enviado"
  | .completado => "completado"
  | .cancelado => "cancelado"

/-- The `Order.cambiarEstado`: validates the transition first and throws
before touching anything on an invalid one (so the entity is left
unchanged); on a valid one it appends one history record and then sets
the status.  The timestamp of the record (`new Date()`) enters as a
parameter. -/
def Order.cambiarEstado (o : Order) (nuevoEstado : OrderStatus) (fecha : Nat)
    (adminId : Option String) : Except String Order :=
  if Order.esTransicionValida o.estado nuevoEstado then
    Except.ok
      { o with
        historial_estados :=
          o.historial_estados ++ [⟨nuevoEstado, fecha, adminId⟩]
        estado := nuevoEstado }
  else
    Except.error
      ("No se puede cambiar de " ++ o.estado.text ++ " a " ++ nuevoEstado.text)

-- ====================================================================
-- Theorems: C1, C2, C4, C7, C9
-- ====================================================================

-- ====================================================================
-- LRUCache  (src/core/structures/LRUCache.ts)
-- ====================================================================

/-- The `LRUCache`: a JS `Map` (insertion-ordered, oldest first) plus a fixed
capacity.  The constructor throws unless the capacity is positive. -/
structure LRUCache (K V : Type) where
  cache : List (K × V)
  capacity : Nat
deriving DecidableEq, Repr

/-- The `Map.delete key`: removes the entry of `key`.  In a `Map` keys are
unique, so removing every matching entry is the same operation; the
recursion keeps the remaining entries in order. -/
def eraseKey {K V : Type} [DecidableEq K] : List (K × V) → K → List (K × V)
  | [], _ => []
  | (k, v) :: rest, key =>
    if k = key then eraseKey rest key else (k, v) :: eraseKey rest key

/-- The `LRUCache.has`: key membership without touching the order. -/
def LRUCache.hasKey {K V : Type} [DecidableEq K] (c : LRUCache K V) (key : K) :
    Bool :=
  (lookupKey c.cache key).isSome

/-- The `LRUCache.get`: a miss returns `undefined` and leaves the cache as
is; a hit deletes the entry and re-inserts it at the end (most recently
used) and returns the value. -/
def LRUCache.get {K V : Type} [DecidableEq K] (c : LRUCache K V) (key : K) :
    Option V × LRUCache K V :=
  match lookupKey c.cache key with
  | none => (none, c)
  | some value =>
    (some value, { c with cache := eraseKey c.cache key ++ [(key, value)] })

/-- The `LRUCache.set`: deletes a pre-existing entry for the key, then, if
the size still reaches the capacity, deletes the first (oldest) entry —
the source guards the first key against `undefined`, i.e. does nothing
on an empty map — and finally appends the new entry at the end. -/
def LRUCache.set {K V : Type} [DecidableEq K] (c : LRUCache K V) (key : K)
    (value : V) : LRUCache K V :=
  let afterDup :=
    if (lookupKey c.cache key).isSome then eraseKey c.cache key else c.cache
  let afterEvict :=
    if c.capacity ≤ afterDup.length then afterDup.tail else afterDup
  { c with cache := afterEvict ++ [(key, value)] }

/-- The `LRUCache.delete`: removes the entry, reporting whether it existed. -/
def LRUCache.delete {K V : Type} [DecidableEq K] (c : LRUCache K V) (key : K) :
    Bool × LRUCache K V :=
  ((lookupKey c.cache key).isSome, { c with cache := eraseKey c.cache key })

/-- The `LRUCache.clear`. -/
def LRUCache.clear {K V : Type} (c : LRUCache K V) : LRUCache K V :=
  { c with cache := [] }

/-- The `LRUCache.size`. -/
def LRUCache.size {K V : Type} (c : LRUCache K V) : Nat :=
  c.cache.length

/-- The `LRUCache.getKeys`: the keys, oldest → most recent. -/
def LRUCache.getKeys {K V : Type} (c : LRUCache K V) : List K :=
  c.cache.map Prod.fst

/-- The cache states reachable from a freshly constructed cache of
capacity `C` by any sequence of `get` / `set` / `delete` / `clear`. -/
inductive LRUCache.Reachable {K V : Type} [DecidableEq K] (C : Nat) :
    LRUCache K V → Prop where
  | empty : LRUCache.Reachable C ⟨[], C⟩
  | getStep (c : LRUCache K V) (key : K) :
      LRUCache.Reachable C c → LRUCache.Reachable C (c.get key).2
  | setStep (c : LRUCache K V) (key : K) (value : V) :
      LRUCache.Reachable C c → LRUCache.Reachable C (c.set key value)
  | deleteStep (c : LRUCache K V) (key : K) :
      LRUCache.Reachable C c → LRUCache.Reachable C (c.delete key).2
  | clearStep (c : LRUCache K V) :
      LRUCache.Reachable C c → LRUCache.Reachable C c.clear

-- ====================================================================
-- CheckoutFacade.process  (src/core/patterns/facade/CheckoutFacade.ts)
-- ====================================================================

/-- A cart line enriched by validation with the indexed price (the
source's `parseFloat(producto.precio)`) and name. -/
structure ProductoConDetalle where
  producto_id : String
  cantidad : Int
  precio : ℚ
  nombre : String
deriving DecidableEq, Repr

/-- The failures `process` can report: the two validation failures of
`validateProducts` and a caught thrown error (`error.message`), carrying
the source's message data. -/
inductive CheckoutError where
  | productoNoEncontrado (id : String)
  | stockInsuficiente (nombre : String) (disponible solicitado : Int)
  | errorLanzado (mensaje : String)
deriving DecidableEq, Repr

/-- The `CheckoutFacade.validateProducts`: walks the cart in order; the
first line whose product is missing from the index aborts with a
not-found error, the first line whose requested quantity exceeds the
indexed stock aborts with an insufficient-stock error; otherwise every
line is enriched with price and name. -/
def CheckoutFacade.validateProducts (idx : ProductIndex) :
    List CheckoutItem → Except CheckoutError (List ProductoConDetalle)
  | [] => Except.ok []
  | item :: rest =>
    match ProductIndex.get idx item.producto_id with
    | none => Except.error (CheckoutError.productoNoEncontrado item.producto_id)
    | some producto =>
      if producto.stock < item.cantidad then
        Except.error (CheckoutError.stockInsuficiente producto.nombre
          producto.stock item.cantidad)
      else
        match CheckoutFacade.validateProducts idx rest with
        | Except.error e => Except.error e
        | Except.ok l =>
          Except.ok (⟨item.producto_id, item.cantidad, producto.precio,
            producto.nombre⟩ :: l)

/-- The `CheckoutFacade.calculateSubtotal`: Σ quantity × unit price. -/
def CheckoutFacade.calculateSubtotal (productos : List ProductoConDetalle) : ℚ :=
  productos.foldl (fun sum p => sum + (p.cantidad : ℚ) * p.precio) 0

/-- The `CheckoutResult` record of the facade. -/
structure CheckoutResult where
  success : Bool
  orderId : Option String
  subtotal : Option ℚ
  descuentos : Option (List Discount)
  total_descuentos : Option ℚ
  costo_envio : Option ℚ
  total : Option ℚ
  error : Option CheckoutError
deriving DecidableEq, Repr

/-- A committed row of the `pedidos` table (the columns `process`
inserts). -/
structure PedidoRow where
  id : String
  usuario_id : String
  subtotal : ℚ
  costo_envio : ℚ
  total : ℚ
  estado : String
  metodo_envio : ShippingType
  direccion_envio : String
deriving DecidableEq, Repr

/-- A committed row of the `detalle_pedidos` table. -/
structure DetalleRow where
  pedido_id : String
  producto_id : String
  cantidad : Int
  precio_unitario : ℚ
deriving DecidableEq, Repr

/-- A task enqueued by `EmailObserver.update` on the shared email queue. -/
structure EmailTask where
  type : String
  orderId : String
  userId : String
  userEmail : String
  userName : String
  total : ℚ
deriving DecidableEq, Repr

/-- The state `process` touches: the in-memory product index, the two
database tables it writes, and the email work queue. -/
structure CheckoutState where
  productIndex : ProductIndex
  pedidos : List PedidoRow
  detalles : List DetalleRow
  emailQueue : List EmailTask
deriving DecidableEq, Repr

/-- The `CheckoutData` argument of `process`. -/
structure CheckoutData where
  usuario_id : String
  productos : List CheckoutItem
  metodo_envio : ShippingType
  direccion_envio : Option String
deriving DecidableEq, Repr

/-- The `InventoryObserver.update` on the in-memory index: for each ordered
line, if the product is present its indexed stock is reduced by the
quantity (no check — validation already happened); the parallel SQL
`UPDATE productos SET stock = stock - ?` touches the store of record,
not this index. -/
def InventoryObserver.updateIndex (idx : ProductIndex)
    (productos : List ProductoConDetalle) : ProductIndex :=
  productos.foldl
    (fun i item =>
      match ProductIndex.get i item.producto_id with
      | none => i
      | some product =>
        ProductIndex.update i item.producto_id
          { product with stock := product.stock - item.cantidad })
    idx

/-- The `CheckoutFacade.process`.  The database reads and ambient inputs
enter as parameters: `orderId` is the fresh `uuidv4()`, `today` is
`new Date().getDay()`, `userEmail`/`userName` the user row read for the
notification; the order count of the user is derived from the `pedidos`
table in the state.  A validation failure (and a thrown shipping error)
rolls the transaction back: the state is returned untouched.  On
success the pedido row and its detail rows are committed and the two
attached observers run: `EmailObserver` enqueues one confirmation task,
`InventoryObserver` decrements the indexed stock of each line. -/
def CheckoutFacade.process (st : CheckoutState) (data : CheckoutData)
    (orderId : String) (today : Nat) (userEmail userName : String) :
    CheckoutResult × CheckoutState :=
  match CheckoutFacade.validateProducts st.productIndex data.productos with
  | Except.error e =>
    ({ success := false, orderId := none, subtotal := none, descuentos := none,
       total_descuentos := none, costo_envio := none, total := none,
       error := some e }, st)
  | Except.ok productosConDetalles =>
    let subtotal := CheckoutFacade.calculateSubtotal productosConDetalles
    let orderCount := (st.pedidos.filter
      (fun p => decide (p.usuario_id = data.usuario_id))).length
    let discounts := CheckoutFacade.getAutomaticDiscounts orderCount subtotal
      data.productos today
    let totalConDescuentos :=
      CheckoutFacade.applyDiscountsRecursive subtotal discounts
    let totalDescuentos := subtotal - totalConDescuentos
    match ShippingStrategyFactory.cost data.metodo_envio
        (productosConDetalles.map
          (fun p => ⟨p.producto_id, p.cantidad, p.precio⟩)) with
    | Except.error msg =>
      ({ success := false, orderId := none, subtotal := none,
         descuentos := none, total_descuentos := none, costo_envio := none,
         total := none, error := some (CheckoutError.errorLanzado msg) }, st)
    | Except.ok costoEnvio =>
      let total := totalConDescuentos + costoEnvio
      let direccionEnvio := data.direccion_envio.getD
        "Dirección no especificada"
      let newPedido : PedidoRow :=
        ⟨orderId, data.usuario_id, subtotal, costoEnvio, total, "procesando",
          data.metodo_envio, direccionEnvio⟩
      let newDetalles := productosConDetalles.map
        (fun p => (⟨orderId, p.producto_id, p.cantidad, p.precio⟩ : DetalleRow))
      let task : EmailTask := ⟨"order_confirmation", orderId, data.usuario_id,
        userEmail, userName, total⟩
      ({ success := true, orderId := some orderId, subtotal := some subtotal,
         descuentos := some discounts, total_descuentos := some totalDescuentos,
         costo_envio := some costoEnvio, total := some total, error := none },
       { productIndex :=
           InventoryObserver.updateIndex st.productIndex productosConDetalles
         pedidos := st.pedidos ++ [newPedido]
         detalles := st.detalles ++ newDetalles
         emailQueue := st.emailQueue ++ [task] })

-- ====================================================================
-- OrderService cache discipline
-- (src/features/pedidos/application/order.service.ts)
-- ====================================================================

/-- What the order cache stores: an order view — a pedido row, plus its
detail rows when the view was built by `getById` (the rows cached by
`getUserOrders` carry no details). -/
structure CachedOrder where
  row : PedidoRow
  detalles : List DetalleRow
deriving DecidableEq, Repr

/-- The service state relevant to the cache discipline: the LRU order
cache (constructed with capacity 50) and the two tables read. -/
structure OrderServiceState where
  orderCache : LRUCache String CachedOrder
  pedidos : List PedidoRow
  detalles : List DetalleRow
deriving DecidableEq, Repr

/-- Characters of a `uuidv4()` string: lowercase hex digits and the
hyphen. -/
def isUuidChar (c : Char) : Bool :=
  c.isDigit || (decide ('a' ≤ c) && decide (c ≤ 'f')) || c = '-'

/-- Shape of a `uuidv4()` order id: 36 characters, all hex or hyphen. -/
def isUuidStr (s : String) : Bool :=
  decide (s.length = 36) && s.data.all isUuidChar

/-- The cache key `invalidateUserCache` and `getUserOrders` build:
`user_orders_<userId>`. -/
def userOrdersKey (userId : String) : String :=
  "user_orders_" ++ userId

/-- The `OrderService.invalidateUserCache`: deletes the user-orders key. -/
def OrderService.invalidateUserCache (cache : LRUCache String CachedOrder)
    (userId : String) : LRUCache String CachedOrder :=
  (cache.delete (userOrdersKey userId)).2

/-- The `OrderService.getUserOrders`: tries the cache under
`user_orders_<userId>`; on a hit it returns that single cached view as
the whole list; on a miss it queries the user's rows and caches each row
under `order.id` (the `rows.length > 0` guard of the source is the
no-op fold on an empty row list). -/
def OrderService.getUserOrders (s : OrderServiceState) (userId : String) :
    List PedidoRow × OrderServiceState :=
  let res := s.orderCache.get (userOrdersKey userId)
  match res.1 with
  | some cached => ([cached.row], { s with orderCache := res.2 })
  | none =>
    let rows := s.pedidos.filter (fun p => decide (p.usuario_id = userId))
    (rows,
      { s with orderCache :=
          rows.foldl (fun c row => c.set row.id ⟨row, []⟩) res.2 })

/-- The `OrderService.getById`: tries the cache under the order id (a cached
view without details falls through to the database); on the database
path a missing row or a permission failure throws with no cache write,
otherwise the full view is cached under `orderId` — which is the id of
the row found. -/
def OrderService.getById (s : OrderServiceState) (orderId userId : String)
    (isAdmin : Bool) : Except String CachedOrder × OrderServiceState :=
  let res := s.orderCache.get orderId
  let fromDb : Except String CachedOrder × OrderServiceState :=
    match s.pedidos.find? (fun p => decide (p.id = orderId)) with
    | none => (Except.error "Pedido no encontrado", { s with orderCache := res.2 })
    | some row =>
      if isAdmin = false ∧ row.usuario_id ≠ userId then
        (Except.error "No tienes permiso para ver este pedido",
          { s with orderCache := res.2 })
      else
        let detailRows := s.detalles.filter
          (fun d => decide (d.pedido_id = orderId))
        let order : CachedOrder := ⟨row, detailRows⟩
        (Except.ok order, { s with orderCache := res.2.set orderId order })
  match res.1 with
  | some cached =>
    if cached.detalles.length > 0 then
      if isAdmin = false ∧ cached.row.usuario_id ≠ userId then
        (Except.error "No tienes permiso para ver este pedido",
          { s with orderCache := res.2 })
      else (Except.ok cached, { s with orderCache := res.2 })
    else fromDb
  | none => fromDb

/-- The state change of a successful `OrderService.create`: the checkout
facade commits the new pedido row (whose id is a fresh `uuidv4()`) and
its detail rows, then the service invalidates the user-orders key of the
buyer.  No other cache write happens on this path. -/
def OrderService.createApply (s : OrderServiceState) (row : PedidoRow)
    (newDetalles : List DetalleRow) : OrderServiceState :=
  { orderCache := OrderService.invalidateUserCache s.orderCache row.usuario_id
    pedidos := s.pedidos ++ [row]
    detalles := s.detalles ++ newDetalles }

/-- The `OrderStatus` of a persisted estado string. -/
def OrderStatus.ofString : String → Option OrderStatus
  | "procesando" => some OrderStatus.procesando
  | "enviado" => some OrderStatus.enviado
  | "completado" => some OrderStatus.completado
  | "cancelado" => some OrderStatus.cancelado
  | _ => none

/-- The `OrderService.updateStatus`: loads the row, validates the transition
through the `Order` entity and, on success, updates the row's estado,
deletes the order's cache entry and invalidates the buyer's user-orders
key.  A missing row or an invalid transition rolls back, leaving every
structure unchanged. -/
def OrderService.updateStatusApply (s : OrderServiceState)
    (orderId nuevoEstado : String) : OrderServiceState :=
  match s.pedidos.find? (fun p => decide (p.id = orderId)) with
  | none => s
  | some row =>
    match OrderStatus.ofString row.estado, OrderStatus.ofString nuevoEstado with
    | some actual, some nuevo =>
      if Order.esTransicionValida actual nuevo then
        { s with
          pedidos := s.pedidos.map (fun p =>
            if p.id = orderId then { p with estado := nuevoEstado } else p)
          orderCache := OrderService.invalidateUserCache
            ((s.orderCache.delete orderId).2) row.usuario_id }
      else s
    | _, _ => s

/-- The service states reachable from a fresh `OrderService` (empty
cache of capacity 50) over a database whose order ids come from
`uuidv4()` — rows created by this application's checkout path. -/
inductive OrderService.Reachable : OrderServiceState → Prop where
  | init (pedidos : List PedidoRow) (detalles : List DetalleRow)
      (h : ∀ row ∈ pedidos, isUuidStr row.id = true) :
      OrderService.Reachable ⟨⟨[], 50⟩, pedidos, detalles⟩
  | createStep (s : OrderServiceState) (row : PedidoRow)
      (newDetalles : List DetalleRow) (h : isUuidStr row.id = true) :
      OrderService.Reachable s →
      OrderService.Reachable (OrderService.createApply s row newDetalles)
  | getUserOrdersStep (s : OrderServiceState) (userId : String) :
      OrderService.Reachable s →
      OrderService.Reachable (OrderService.getUserOrders s userId).2
  | getByIdStep (s : OrderServiceState) (orderId userId : String)
      (isAdmin : Bool) :
      OrderService.Reachable s →
      OrderService.Reachable (OrderService.getById s orderId userId isAdmin).2
  | updateStatusStep (s : OrderServiceState) (orderId nuevoEstado : String) :
      OrderService.Reachable s →
      OrderService.Reachable
        (OrderService.updateStatusApply s orderId nuevoEstado)

-- ====================================================================
-- Theorems
-- ====================================================================

theorem lookupKey_append {K V : Type} [DecidableEq K] (l1 l2 : List (K × V))
    (key : K) :
    lookupKey (l1 ++ l2) key =
      match lookupKey l1 key with
      | some v => some v
      | none => lookupKey l2 key := by
  induction l1 with
  | nil => simp [lookupKey]
  | cons head tail ih =>
    obtain ⟨a, b⟩ := head
    by_cases h : a = key <;> simp [lookupKey, h, ih]

/-- The `Map.set` seen through lookup: the written key now maps to the new
value, every other key is untouched. -/
theorem lookupKey_mapSet {K V : Type} [DecidableEq K] (l : List (K × V))
    (key k : K) (v : V) :
    lookupKey (mapSet l key v) k = if k = key then some v else lookupKey l k := by
  induction l with
  | nil =>
    by_cases h : k = key
    · subst h; simp [mapSet, lookupKey]
    · have h' : ¬ key = k := fun hh => h hh.symm
      simp [mapSet, lookupKey, h, h']
  | cons head tail ih =>
    obtain ⟨a, b⟩ := head
    by_cases hak : a = key
    · subst hak
      by_cases hka : k = a
      · subst hka; simp [mapSet, lookupKey]
      · have hka' : ¬ a = k := fun hh => hka hh.symm
        simp [mapSet, lookupKey, hka, hka']
    · by_cases hka : a = k
      · subst hka
        have hkk : ¬ a = key := hak
        simp [mapSet, lookupKey, hak, hkk]
      · simp [mapSet, lookupKey, hak, hka, ih]

/-- Claim C1. The discount fold of `CheckoutFacade.applyDiscountsRecursive`
is claimed to never return a negative amount (clamp-at-zero).  The code
has no clamp: on the subtotal 1000 with the source's own Monday discount
(fixed 10000) the fold returns -9000, a negative amount.  This evaluates
the code at that failing input. -/
theorem c1_applyDiscounts_goes_negative :
    CheckoutFacade.applyDiscountsRecursive 1000
      [⟨DiscountType.fixed, 10000, "Lunes de Descuento"⟩] = -9000 ∧
    CheckoutFacade.applyDiscountsRecursive 1000
      [⟨DiscountType.fixed, 10000, "Lunes de Descuento"⟩] < 0 := by
  constructor <;> norm_num [CheckoutFacade.applyDiscountsRecursive]

/-- Claim C2. `Order.cambiarEstado` succeeds exactly on the four pairs
procesando→enviado, procesando→cancelado, enviado→completado,
enviado→cancelado; on success it appends exactly one history record
carrying the new status (so the history grows by one and its last entry
matches the new current status) and sets the status; on any other pair it
returns the invalid-transition error (the source throws before any
mutation, leaving status and history unchanged). -/
theorem c2_cambiarEstado_transitions (o : Order) (nuevo : OrderStatus)
    (fecha : Nat) (adminId : Option String) :
    ((o.estado, nuevo) ∈ [(OrderStatus.procesando, OrderStatus.enviado),
        (OrderStatus.procesando, OrderStatus.cancelado),
        (OrderStatus.enviado, OrderStatus.completado),
        (OrderStatus.enviado, OrderStatus.cancelado)] →
      o.cambiarEstado nuevo fecha adminId =
        Except.ok
          { o with
            historial_estados :=
              o.historial_estados ++ [⟨nuevo, fecha, adminId⟩]
            estado := nuevo }) ∧
    ((o.estado, nuevo) ∉ [(OrderStatus.procesando, OrderStatus.enviado),
        (OrderStatus.procesando, OrderStatus.cancelado),
        (OrderStatus.enviado, OrderStatus.completado),
        (OrderStatus.enviado, OrderStatus.cancelado)] →
      o.cambiarEstado nuevo fecha adminId =
        Except.error
          ("No se puede cambiar de " ++ o.estado.text ++ " a " ++
            nuevo.text)) ∧
    (∀ o', o.cambiarEstado nuevo fecha adminId = Except.ok o' →
      o'.estado = nuevo ∧
      o'.historial_estados = o.historial_estados ++ [⟨nuevo, fecha, adminId⟩] ∧
      o'.historial_estados.length = o.historial_estados.length + 1 ∧
      o'.historial_estados.getLast? = some ⟨nuevo, fecha, adminId⟩) := by
  refine ⟨?_, ?_, ?_⟩
  · intro hmem
    cases ho : o.estado <;> cases nuevo <;>
      simp_all [Order.cambiarEstado, Order.esTransicionValida,
        transicionesValidas]
  · intro hmem
    cases ho : o.estado <;> cases nuevo <;>
      simp_all [Order.cambiarEstado, Order.esTransicionValida,
        transicionesValidas]
  · intro o' h
    rw [Order.cambiarEstado] at h
    split at h
    · cases h
      refine ⟨rfl, rfl, by simp, by simp⟩
    · cases h

/-- Witness for C2: a concrete order in `procesando` moved to `enviado`
succeeds with the expected history, and moved to `completado` fails. -/
theorem c2_cambiarEstado_transitions_witness :
    (Order.ofData ⟨"o1", "u1", 100, 5, 105, .procesando, .standard,
        "Calle 1", 7, none⟩).cambiarEstado .enviado 9 (some "admin1") =
      Except.ok
        { Order.ofData ⟨"o1", "u1", 100, 5, 105, .procesando, .standard,
            "Calle 1", 7, none⟩ with
          historial_estados :=
            (Order.ofData ⟨"o1", "u1", 100, 5, 105, .procesando, .standard,
              "Calle 1", 7, none⟩).historial_estados ++
              [⟨.enviado, 9, some "admin1"⟩]
          estado := .enviado } ∧
    (Order.ofData ⟨"o1", "u1", 100, 5, 105, .procesando, .standard,
        "Calle 1", 7, none⟩).cambiarEstado .completado 9 none =
      Except.error "No se puede cambiar de procesando a completado" := by
  constructor
  · exact (c2_cambiarEstado_transitions _ .enviado 9 (some "admin1")).1
      (by decide)
  · exact (c2_cambiarEstado_transitions (Order.ofData ⟨"o1", "u1", 100, 5,
      105, .procesando, .standard, "Calle 1", 7, none⟩) .completado 9
      none).2.1 (by decide)

/-- Claim C4. `ProductIndex.reduceStock` with a positive quantity: absent
product or insufficient stock returns `false` and leaves the index
unchanged; sufficient stock returns `true`, decreases that product's
stock by exactly the quantity and leaves every other product unchanged;
hence, starting from an index with non-negative stocks, no call drives
any stock below zero. -/
theorem c4_reduceStock_atomic (idx : ProductIndex) (productId : String)
    (quantity : Int) (hq : 0 < quantity) :
    (ProductIndex.get idx productId = none →
      ProductIndex.reduceStock idx productId quantity = (false, idx)) ∧
    (∀ p, ProductIndex.get idx productId = some p → p.stock < quantity →
      ProductIndex.reduceStock idx productId quantity = (false, idx)) ∧
    (∀ p, ProductIndex.get idx productId = some p → quantity ≤ p.stock →
      (ProductIndex.reduceStock idx productId quantity).1 = true ∧
      ProductIndex.get (ProductIndex.reduceStock idx productId quantity).2
          productId = some { p with stock := p.stock - quantity } ∧
      (∀ other, other ≠ productId →
        ProductIndex.get (ProductIndex.reduceStock idx productId quantity).2
            other = ProductIndex.get idx other)) ∧
    ((∀ k p, ProductIndex.get idx k = some p → 0 ≤ p.stock) →
      ∀ k p, ProductIndex.get
          (ProductIndex.reduceStock idx productId quantity).2 k = some p →
        0 ≤ p.stock) := by
  refine ⟨?_, ?_, ?_, ?_⟩
  · intro h
    simp [ProductIndex.reduceStock, h]
  · intro p hp hlt
    simp [ProductIndex.reduceStock, hp, hlt]
  · intro p hp hge
    have hnlt : ¬ p.stock < quantity := not_lt.mpr hge
    refine ⟨?_, ?_, ?_⟩
    · simp [ProductIndex.reduceStock, hp, hnlt]
    · simp only [ProductIndex.reduceStock, hp, hnlt, if_false]
      show ProductIndex.get (ProductIndex.update idx productId _) productId = _
      rw [ProductIndex.get, ProductIndex.update, lookupKey_mapSet]
      simp
    · intro other hother
      simp only [ProductIndex.reduceStock, hp, hnlt, if_false]
      show ProductIndex.get (ProductIndex.update idx productId _) other = _
      rw [ProductIndex.get, ProductIndex.update, lookupKey_mapSet]
      rw [if_neg hother]
      rfl
  · intro hnn k p' hk
    rcases hg : ProductIndex.get idx productId with _ | p
    · simp only [ProductIndex.reduceStock, hg] at hk
      exact hnn _ _ hk
    · by_cases hlt : p.stock < quantity
      · simp only [ProductIndex.reduceStock, hg, if_pos hlt] at hk
        exact hnn _ _ hk
      · simp only [ProductIndex.reduceStock, hg, if_neg hlt] at hk
        have hk' : lookupKey (mapSet idx productId
            { p with stock := p.stock - quantity }) k = some p' := hk
        rw [lookupKey_mapSet] at hk'
        by_cases hkid : k = productId
        · rw [if_pos hkid] at hk'
          cases hk'
          have hsp : 0 ≤ p.stock - quantity := by
            have := hnn productId p hg
            omega
          simpa using hsp
        · rw [if_neg hkid] at hk'
          exact hnn _ _ hk'

/-- Witness for C4: on a one-product index with stock 3, requesting 5
fails leaving stock 3, and requesting 2 succeeds leaving stock 1. -/
theorem c4_reduceStock_atomic_witness :
    (0 : Int) < 5 ∧
    ProductIndex.reduceStock [("p1", ⟨"p1", "Zelda", 100000, 3⟩)] "p1" 5 =
      (false, [("p1", ⟨"p1", "Zelda", 100000, 3⟩)]) ∧
    (ProductIndex.reduceStock [("p1", ⟨"p1", "Zelda", 100000, 3⟩)] "p1" 2).1 =
      true ∧
    ProductIndex.get
      (ProductIndex.reduceStock [("p1", ⟨"p1", "Zelda", 100000, 3⟩)] "p1" 2).2
      "p1" = some ⟨"p1", "Zelda", 100000, 1⟩ := by
  refine ⟨by decide, ?_, ?_, ?_⟩
  · exact (c4_reduceStock_atomic [("p1", ⟨"p1", "Zelda", 100000, 3⟩)] "p1" 5
      (by decide)).2.1 ⟨"p1", "Zelda", 100000, 3⟩ (by decide) (by decide)
  · exact ((c4_reduceStock_atomic [("p1", ⟨"p1", "Zelda", 100000, 3⟩)] "p1" 2
      (by decide)).2.2.1 ⟨"p1", "Zelda", 100000, 3⟩ (by decide) (by decide)).1
  · have := ((c4_reduceStock_atomic [("p1", ⟨"p1", "Zelda", 100000, 3⟩)]
      "p1" 2 (by decide)).2.2.1 ⟨"p1", "Zelda", 100000, 3⟩ (by decide)
      (by decide)).2.1
    simpa using this

/-- Claim C7. For every non-empty item list the shipping cost is the flat
amount of the strategy — 5000 standard, 15000 express, 0 store pickup —
independent of the items; on the empty list each of the three strategies
throws instead of returning an amount. -/
theorem c7_shipping_flat_costs (items : List OrderItem) :
    (items ≠ [] →
      StandardShipping.calculateCost items = Except.ok 5000 ∧
      ExpressShipping.calculateCost items = Except.ok 15000 ∧
      StorePickup.calculateCost items = Except.ok 0) ∧
    (items = [] →
      StandardShipping.calculateCost items =
        Except.error "El pedido debe contener al menos un producto" ∧
      ExpressShipping.calculateCost items =
        Except.error "El pedido debe contener al menos un producto" ∧
      StorePickup.calculateCost items =
        Except.error "El pedido debe contener al menos un producto") := by
  constructor
  · intro h
    have hne : ¬ items.isEmpty := by
      cases items with
      | nil => exact absurd rfl h
      | cons a l => simp
    refine ⟨?_, ?_, ?_⟩ <;>
      simp [StandardShipping.calculateCost, ExpressShipping.calculateCost,
        StorePickup.calculateCost, hne]
  · intro h
    subst h
    refine ⟨rfl, rfl, rfl⟩

/-- Witness for C7: on a concrete one-item cart the three strategies
return 5000/15000/0, and on the empty cart the standard strategy throws. -/
theorem c7_shipping_flat_costs_witness :
    StandardShipping.calculateCost [⟨"p1", 2, 100000⟩] = Except.ok 5000 ∧
    ExpressShipping.calculateCost [⟨"p1", 2, 100000⟩] = Except.ok 15000 ∧
    StorePickup.calculateCost [⟨"p1", 2, 100000⟩] = Except.ok 0 ∧
    StandardShipping.calculateCost [] =
      Except.error "El pedido debe contener al menos un producto" := by
  refine ⟨?_, ?_, ?_, ?_⟩
  · exact ((c7_shipping_flat_costs [⟨"p1", 2, 100000⟩]).1 (by simp)).1
  · exact ((c7_shipping_flat_costs [⟨"p1", 2, 100000⟩]).1 (by simp)).2.1
  · exact ((c7_shipping_flat_costs [⟨"p1", 2, 100000⟩]).1 (by simp)).2.2
  · exact ((c7_shipping_flat_costs []).2 rfl).1

/-- Claim C9. Both factory methods of `Order` seed the status history with
exactly one record whose status equals the instance's current status:
`fromDatabase` never reloads previously persisted transitions (the
`OrderData` interface carries no history at all), and `create` starts at
`procesando` with a single matching record. -/
theorem c9_order_history_seed (data : OrderData) (pdata : PartialOrderData)
    (now : Nat) :
    (Order.fromDatabase data).historial_estados =
      [⟨data.estado, data.fecha_pedido, none⟩] ∧
    (Order.fromDatabase data).historial_estados.length = 1 ∧
    (Order.fromDatabase data).historial_estados.head?.map
        OrderStatusHistory.estado = some (Order.fromDatabase data).estado ∧
    (Order.create pdata now).historial_estados =
      [⟨OrderStatus.procesando, now, none⟩] ∧
    (Order.create pdata now).historial_estados.length = 1 ∧
    (Order.create pdata now).estado = OrderStatus.procesando ∧
    (Order.create pdata now).historial_estados.head?.map
        OrderStatusHistory.estado = some OrderStatus.procesando := by
  refine ⟨rfl, rfl, rfl, rfl, rfl, rfl, rfl⟩

theorem eraseKey_sublist {K V : Type} [DecidableEq K] (l : List (K × V))
    (key : K) : (eraseKey l key).Sublist l := by
  induction l with
  | nil => simp [eraseKey]
  | cons head tail ih =>
    obtain ⟨a, b⟩ := head
    by_cases h : a = key
    · simp only [eraseKey, if_pos h]
      exact ih.trans (List.sublist_cons_self _ _)
    · simp only [eraseKey, if_neg h]
      exact ih.cons₂ _

theorem keys_eraseKey {K V : Type} [DecidableEq K] (l : List (K × V))
    (key : K) :
    (eraseKey l key).map Prod.fst =
      (l.map Prod.fst).filter (fun x => decide (x ≠ key)) := by
  induction l with
  | nil => simp [eraseKey]
  | cons head tail ih =>
    obtain ⟨a, b⟩ := head
    by_cases h : a = key <;> simp [eraseKey, h, ih, List.filter_cons]

theorem lookupKey_eq_none_iff {K V : Type} [DecidableEq K] (l : List (K × V))
    (k : K) : lookupKey l k = none ↔ k ∉ l.map Prod.fst := by
  induction l with
  | nil => simp [lookupKey]
  | cons head tail ih =>
    obtain ⟨a, b⟩ := head
    by_cases h : a = k
    · subst h; simp [lookupKey]
    · have h' : ¬ k = a := fun hh => h hh.symm
      simp [lookupKey, h, ih, h']

theorem eraseKey_length_lt {K V : Type} [DecidableEq K] (l : List (K × V))
    (key : K) (h : (lookupKey l key).isSome) :
    (eraseKey l key).length < l.length := by
  induction l with
  | nil => simp [lookupKey] at h
  | cons head tail ih =>
    obtain ⟨a, b⟩ := head
    by_cases hk : a = key
    · simp only [eraseKey, if_pos hk, List.length_cons]
      exact Nat.lt_succ_of_le (eraseKey_sublist tail key).length_le
    · simp only [lookupKey, if_neg hk] at h
      simp only [eraseKey, if_neg hk, List.length_cons]
      exact Nat.succ_lt_succ (ih h)

theorem keys_tail {K V : Type} (l : List (K × V)) :
    l.tail.map Prod.fst = (l.map Prod.fst).tail := by
  cases l <;> simp

theorem not_mem_keys_eraseKey {K V : Type} [DecidableEq K] (l : List (K × V))
    (key : K) : key ∉ (eraseKey l key).map Prod.fst := by
  rw [keys_eraseKey]; simp

theorem mem_keys_eraseKey {K V : Type} [DecidableEq K] (l : List (K × V))
    (key j : K) (hj : j ∈ l.map Prod.fst) (hne : j ≠ key) :
    j ∈ (eraseKey l key).map Prod.fst := by
  rw [keys_eraseKey]; simp [hj, hne]

theorem keys_eraseKey_subset {K V : Type} [DecidableEq K] (l : List (K × V))
    (key j : K) (hj : j ∈ (eraseKey l key).map Prod.fst) :
    j ∈ l.map Prod.fst := by
  rw [keys_eraseKey] at hj
  exact List.mem_of_mem_filter hj

theorem nodup_keys_eraseKey {K V : Type} [DecidableEq K] (l : List (K × V))
    (key : K) (h : (l.map Prod.fst).Nodup) :
    ((eraseKey l key).map Prod.fst).Nodup :=
  h.sublist ((eraseKey_sublist l key).map Prod.fst)

/-- The state invariant of every reachable LRU cache with positive
capacity: the capacity field is the construction capacity, keys are
unique, and the size never exceeds the capacity. -/
theorem lru_invariant {K V : Type} [DecidableEq K] (C : Nat) (hC : 0 < C)
    (c : LRUCache K V) (h : LRUCache.Reachable C c) :
    c.capacity = C ∧ (c.cache.map Prod.fst).Nodup ∧ c.cache.length ≤ C := by
  induction h with
  | empty => exact ⟨rfl, by simp, by simp⟩
  | getStep c key hr ih =>
    obtain ⟨hcap, hnd, hlen⟩ := ih
    rcases hl : lookupKey c.cache key with _ | v
    · simpa [LRUCache.get, hl] using ⟨hcap, hnd, hlen⟩
    · have hlt := eraseKey_length_lt c.cache key (by simp [hl])
      refine ⟨by simp [LRUCache.get, hl, hcap], ?_, ?_⟩
      · simp only [LRUCache.get, hl, List.map_append]
        refine List.Nodup.append (nodup_keys_eraseKey _ _ hnd) (by simp) ?_
        intro x hx hx'
        simp at hx'
        rw [hx'] at hx
        exact not_mem_keys_eraseKey c.cache key hx
      · simp only [LRUCache.get, hl, List.length_append]
        simp only [List.length_cons, List.length_nil]
        omega
  | setStep c key value hr ih =>
    obtain ⟨hcap, hnd, hlen⟩ := ih
    by_cases hdup : (lookupKey c.cache key).isSome
    · have hlt := eraseKey_length_lt c.cache key hdup
      have hfull : ¬ c.capacity ≤ (eraseKey c.cache key).length := by omega
      simp only [LRUCache.set]
      rw [if_pos hdup, if_neg hfull]
      refine ⟨hcap, ?_, ?_⟩
      · simp only [List.map_append]
        refine List.Nodup.append (nodup_keys_eraseKey _ _ hnd) (by simp) ?_
        intro x hx hx'
        simp at hx'
        rw [hx'] at hx
        exact not_mem_keys_eraseKey c.cache key hx
      · simp only [List.length_append, List.length_cons, List.length_nil]
        omega
    · have hkey : key ∉ c.cache.map Prod.fst := by
        rw [← lookupKey_eq_none_iff]
        exact Option.not_isSome_iff_eq_none.mp hdup
      by_cases hfull : c.capacity ≤ c.cache.length
      · have hlenC : c.cache.length = C := by omega
        simp only [LRUCache.set]
        rw [if_neg hdup, if_pos hfull]
        refine ⟨hcap, ?_, ?_⟩
        · simp only [List.map_append]
          refine List.Nodup.append (hnd.sublist ((List.tail_sublist
            c.cache).map Prod.fst)) (by simp) ?_
          intro x hx hx'
          simp at hx'
          rw [hx'] at hx
          exact hkey (((List.tail_sublist c.cache).map Prod.fst).subset hx)
        · simp only [List.length_append, List.length_cons, List.length_nil,
            List.length_tail]
          omega
      · simp only [LRUCache.set]
        rw [if_neg hdup, if_neg hfull]
        refine ⟨hcap, ?_, ?_⟩
        · simp only [List.map_append]
          refine List.Nodup.append hnd (by simp) ?_
          intro x hx hx'
          simp at hx'
          rw [hx'] at hx
          exact hkey hx
        · simp only [List.length_append, List.length_cons, List.length_nil]
          omega
  | deleteStep c key hr ih =>
    obtain ⟨hcap, hnd, hlen⟩ := ih
    exact ⟨hcap, nodup_keys_eraseKey _ _ hnd,
      ((eraseKey_sublist c.cache key).length_le).trans hlen⟩
  | clearStep c hr ih =>
    exact ⟨ih.1, by simp [LRUCache.clear], by simp [LRUCache.clear]⟩

/-- Claim C5. For every capacity `C > 0` and every cache state reachable
from empty by get/set/delete/clear: (a) the cache never holds more than
`C` entries; (b) inserting a fresh key into a full cache evicts exactly
the least-recently-used entry — the new key list is the old one minus
its first (oldest) element plus the new key at the end, and the old
first key is gone; (c) a `get` hit on `k` followed by inserting one
fresh key never evicts `k` while any other untouched key remains. -/
theorem c5_lru_cache_properties {K V : Type} [DecidableEq K] (C : Nat)
    (hC : 0 < C) (c : LRUCache K V) (h : LRUCache.Reachable C c) :
    c.cache.length ≤ C ∧
    (∀ (knew : K) (v : V), c.cache.length = C →
      lookupKey c.cache knew = none →
      (c.set knew v).getKeys = c.getKeys.tail ++ [knew] ∧
      (∀ hd, c.getKeys.head? = some hd → hd ∉ (c.set knew v).getKeys)) ∧
    (∀ (k : K) (v : V) (knew : K) (vnew : V),
      lookupKey c.cache k = some v → knew ∉ c.getKeys → knew ≠ k →
      (∃ j, j ∈ c.getKeys ∧ j ≠ k) →
      k ∈ (((c.get k).2).set knew vnew).getKeys) := by
  obtain ⟨hcap, hnd, hlen⟩ := lru_invariant C hC c h
  refine ⟨hlen, ?_, ?_⟩
  · intro knew v hfull hmiss
    have hdup : ¬ (lookupKey c.cache knew).isSome = true := by simp [hmiss]
    have hcond : c.capacity ≤ c.cache.length := by omega
    have hcache : (c.set knew v).cache = c.cache.tail ++ [(knew, v)] := by
      simp only [LRUCache.set]
      rw [if_neg hdup, if_pos hcond]
    have hkeys : (c.set knew v).getKeys = c.getKeys.tail ++ [knew] := by
      simp [LRUCache.getKeys, hcache, keys_tail]
    refine ⟨hkeys, ?_⟩
    intro hd hhd
    obtain ⟨t, ht⟩ : ∃ t, c.getKeys = hd :: t := by
      cases kl : c.getKeys with
      | nil => rw [kl] at hhd; cases hhd
      | cons a t =>
        rw [kl] at hhd
        simp at hhd
        exact ⟨t, by rw [hhd]⟩
    have hnd' : hd ∉ t := by
      have : c.getKeys.Nodup := hnd
      rw [ht] at this
      exact (List.nodup_cons.mp this).1
    have hdmem : hd ∈ c.getKeys := by rw [ht]; exact List.mem_cons_self hd t
    have hknewmem : knew ∉ c.getKeys := (lookupKey_eq_none_iff c.cache knew).mp
      hmiss
    have hdne : hd ≠ knew := fun he => hknewmem (he ▸ hdmem)
    rw [hkeys, ht]
    simp only [List.tail_cons, List.mem_append, List.mem_singleton]
    rintro (hmem | hmem)
    · exact hnd' hmem
    · exact hdne hmem
  · intro k v knew vnew hk hknew hkk hj
    obtain ⟨j, hjmem, hjk⟩ := hj
    have hget : (c.get k).2.cache = eraseKey c.cache k ++ [(k, v)] := by
      simp [LRUCache.get, hk]
    have hknew' : lookupKey ((c.get k).2.cache) knew = none := by
      rw [hget, lookupKey_eq_none_iff]
      intro hmem
      rw [List.map_append] at hmem
      rcases List.mem_append.mp hmem with hm | hm
      · exact hknew (keys_eraseKey_subset c.cache k knew hm)
      · simp at hm
        exact hkk hm
    have hdup : ¬ (lookupKey ((c.get k).2.cache) knew).isSome = true := by
      simp [hknew']
    have hjerase : j ∈ (eraseKey c.cache k).map Prod.fst :=
      mem_keys_eraseKey c.cache k j hjmem hjk
    by_cases hcond : (c.get k).2.capacity ≤ ((c.get k).2.cache).length
    · have hcache : (((c.get k).2).set knew vnew).cache =
          ((c.get k).2.cache).tail ++ [(knew, vnew)] := by
        simp only [LRUCache.set]
        rw [if_neg hdup, if_pos hcond]
      rw [LRUCache.getKeys, hcache, hget]
      cases her : eraseKey c.cache k with
      | nil => rw [her] at hjerase; cases hjerase
      | cons e es => simp
    · have hcache : (((c.get k).2).set knew vnew).cache =
          (c.get k).2.cache ++ [(knew, vnew)] := by
        simp only [LRUCache.set]
        rw [if_neg hdup, if_neg hcond]
      rw [LRUCache.getKeys, hcache, hget]
      simp

/-- Witness for C5 at capacity 2: after inserting keys 1 and 2 the size
bound holds; inserting fresh key 3 into the full cache evicts exactly
key 1 (the oldest), giving keys `[2, 3]`; and after a `get` on key 1,
inserting fresh key 3 keeps key 1 while evicting the untouched key 2. -/
theorem c5_lru_cache_properties_witness :
    (((LRUCache.mk ([] : List (ℕ × ℕ)) 2).set 1 10).set 2 20).cache.length ≤
      2 ∧
    ((((LRUCache.mk ([] : List (ℕ × ℕ)) 2).set 1 10).set 2 20).set 3
      30).getKeys = [2, 3] ∧
    1 ∈ (((((LRUCache.mk ([] : List (ℕ × ℕ)) 2).set 1 10).set 2
      20).get 1).2.set 3 30).getKeys := by
  have hr : LRUCache.Reachable 2
      (((LRUCache.mk ([] : List (ℕ × ℕ)) 2).set 1 10).set 2 20) :=
    LRUCache.Reachable.setStep _ 2 20
      (LRUCache.Reachable.setStep _ 1 10 LRUCache.Reachable.empty)
  have hmain := c5_lru_cache_properties 2 (by decide) _ hr
  refine ⟨hmain.1, ?_, ?_⟩
  · rw [(hmain.2.1 3 30 (by decide) (by decide)).1]
    decide
  · exact hmain.2.2 1 10 3 30 (by decide) (by decide) (by decide)
      ⟨2, by decide, by decide⟩

theorem validateProducts_overstock (idx : ProductIndex)
    (items : List CheckoutItem)
    (hres : ∀ item ∈ items, (ProductIndex.get idx item.producto_id).isSome)
    (hover : ∃ item ∈ items, ∃ p,
      ProductIndex.get idx item.producto_id = some p ∧
      p.stock < item.cantidad) :
    ∃ nombre disponible solicitado,
      CheckoutFacade.validateProducts idx items =
        Except.error
          (CheckoutError.stockInsuficiente nombre disponible solicitado) := by
  induction items with
  | nil =>
    obtain ⟨item, hmem, _⟩ := hover
    cases hmem
  | cons item rest ih =>
    rcases hg : ProductIndex.get idx item.producto_id with _ | p
    · have hs := hres item (List.mem_cons_self item rest)
      rw [hg] at hs
      simp at hs
    · by_cases hlt : p.stock < item.cantidad
      · exact ⟨p.nombre, p.stock, item.cantidad,
          by simp [CheckoutFacade.validateProducts, hg, hlt]⟩
      · have hover' : ∃ i ∈ rest, ∃ q,
            ProductIndex.get idx i.producto_id = some q ∧
            q.stock < i.cantidad := by
          obtain ⟨i, hi, q, hq, hql⟩ := hover
          rcases List.mem_cons.mp hi with rfl | hi'
          · rw [hg] at hq
            cases hq
            exact absurd hql hlt
          · exact ⟨i, hi', q, hq, hql⟩
        obtain ⟨n, d, s, hrec⟩ :=
          ih (fun i hi => hres i (List.mem_cons_of_mem _ hi)) hover'
        exact ⟨n, d, s,
          by simp [CheckoutFacade.validateProducts, hg, hlt, hrec]⟩

theorem process_validate_error (st : CheckoutState) (data : CheckoutData)
    (orderId : String) (today : Nat) (userEmail userName : String)
    (e : CheckoutError)
    (h : CheckoutFacade.validateProducts st.productIndex data.productos =
      Except.error e) :
    CheckoutFacade.process st data orderId today userEmail userName =
      ({ success := false, orderId := none, subtotal := none,
         descuentos := none, total_descuentos := none, costo_envio := none,
         total := none, error := some e }, st) := by
  simp [CheckoutFacade.process, h]

/-- Claim C3, counterexample.  The claim is universal over every cart
that contains an over-stock line — but when an earlier line references
an unknown product, validation reports the not-found error instead of
the insufficient-stock one.  Concretely: the index holds `p1` with
stock 3; the cart is `[(ghost, 1), (p1, 5)]` — it contains a line
requesting 5 > 3 of `p1` — yet checkout fails with
`productoNoEncontrado "ghost"`, not an insufficient-stock error. -/
theorem c3_insufficient_stock_error_counterexample :
    (∃ item ∈ ([⟨"ghost", 1⟩, ⟨"p1", 5⟩] : List CheckoutItem), ∃ p,
      ProductIndex.get [("p1", (⟨"p1", "Zelda", 100000, 3⟩ : Product))]
        item.producto_id = some p ∧ p.stock < item.cantidad) ∧
    (CheckoutFacade.process ⟨[("p1", ⟨"p1", "Zelda", 100000, 3⟩)], [], [], []⟩
        ⟨"u1", [⟨"ghost", 1⟩, ⟨"p1", 5⟩], ShippingType.standard, none⟩
        "o1" 3 "ana@mail.com" "Ana").1.error =
      some (CheckoutError.productoNoEncontrado "ghost") ∧
    (∀ nombre disponible solicitado,
      (CheckoutFacade.process ⟨[("p1", ⟨"p1", "Zelda", 100000, 3⟩)], [], [], []⟩
          ⟨"u1", [⟨"ghost", 1⟩, ⟨"p1", 5⟩], ShippingType.standard, none⟩
          "o1" 3 "ana@mail.com" "Ana").1.error ≠
        some (CheckoutError.stockInsuficiente nombre disponible
          solicitado)) := by
  refine ⟨⟨⟨"p1", 5⟩, by decide, ⟨"p1", "Zelda", 100000, 3⟩, by decide,
    by decide⟩, by decide, ?_⟩
  intro nombre disponible solicitado h
  have he : (CheckoutFacade.process
      ⟨[("p1", ⟨"p1", "Zelda", 100000, 3⟩)], [], [], []⟩
      ⟨"u1", [⟨"ghost", 1⟩, ⟨"p1", 5⟩], ShippingType.standard, none⟩
      "o1" 3 "ana@mail.com" "Ana").1.error =
      some (CheckoutError.productoNoEncontrado "ghost") := by decide
  rw [he] at h
  exact CheckoutError.noConfusion (Option.some.inj h)

/-- Claim C3, amended.  If every cart line references an indexed product
and some line requests more units than that product's indexed stock,
then `process` fails with the insufficient-stock error and has no side
effects at all: the returned state — product index, order rows, detail
rows and notification queue — is exactly the input state. -/
theorem c3_insufficient_stock_aborts (st : CheckoutState)
    (data : CheckoutData) (orderId : String) (today : Nat)
    (userEmail userName : String)
    (hres : ∀ item ∈ data.productos,
      (ProductIndex.get st.productIndex item.producto_id).isSome)
    (hover : ∃ item ∈ data.productos, ∃ p,
      ProductIndex.get st.productIndex item.producto_id = some p ∧
      p.stock < item.cantidad) :
    (∃ nombre disponible solicitado,
      (CheckoutFacade.process st data orderId today userEmail userName).1 =
        { success := false, orderId := none, subtotal := none,
          descuentos := none, total_descuentos := none, costo_envio := none,
          total := none,
          error := some (CheckoutError.stockInsuficiente nombre disponible
            solicitado) }) ∧
    (CheckoutFacade.process st data orderId today userEmail userName).2 =
      st := by
  obtain ⟨n, d, s, hval⟩ :=
    validateProducts_overstock st.productIndex data.productos hres hover
  have hp := process_validate_error st data orderId today userEmail userName
    _ hval
  constructor
  · exact ⟨n, d, s, by rw [hp]⟩
  · rw [hp]

/-- Witness for C3 (amended): a cart requesting 5 units of a product
with indexed stock 3 fails with the insufficient-stock error and leaves
the state untouched. -/
theorem c3_insufficient_stock_aborts_witness :
    (∃ nombre disponible solicitado,
      (CheckoutFacade.process ⟨[("p1", ⟨"p1", "Zelda", 100000, 3⟩)], [], [], []⟩
          ⟨"u1", [⟨"p1", 5⟩], ShippingType.standard, none⟩
          "o1" 3 "ana@mail.com" "Ana").1 =
        { success := false, orderId := none, subtotal := none,
          descuentos := none, total_descuentos := none, costo_envio := none,
          total := none,
          error := some (CheckoutError.stockInsuficiente nombre disponible
            solicitado) }) ∧
    (CheckoutFacade.process ⟨[("p1", ⟨"p1", "Zelda", 100000, 3⟩)], [], [], []⟩
        ⟨"u1", [⟨"p1", 5⟩], ShippingType.standard, none⟩
        "o1" 3 "ana@mail.com" "Ana").2 =
      ⟨[("p1", ⟨"p1", "Zelda", 100000, 3⟩)], [], [], []⟩ :=
  c3_insufficient_stock_aborts
    ⟨[("p1", ⟨"p1", "Zelda", 100000, 3⟩)], [], [], []⟩
    ⟨"u1", [⟨"p1", 5⟩], ShippingType.standard, none⟩ "o1" 3 "ana@mail.com"
    "Ana" (by decide)
    ⟨⟨"p1", 5⟩, by decide, ⟨"p1", "Zelda", 100000, 3⟩, by decide, by decide⟩

/-- Claim C6.  The money invariant `total = discounted subtotal + shipping`
does hold by construction, but `total > 0` does not: on a Monday, a
first purchase of one product priced 1000 with store pickup gets the
10% welcome discount and the fixed 10000 Monday discount, and checkout
succeeds, persisting an order row with total -9100 ≤ 0.  This evaluates
the code at that failing input. -/
theorem c6_checkout_persists_nonpositive_total :
    (CheckoutFacade.process ⟨[("p1", ⟨"p1", "Zelda", 1000, 10⟩)], [], [], []⟩
        ⟨"u1", [⟨"p1", 1⟩], ShippingType.pickup, none⟩
        "o1" 1 "ana@mail.com" "Ana").1.success = true ∧
    (CheckoutFacade.process ⟨[("p1", ⟨"p1", "Zelda", 1000, 10⟩)], [], [], []⟩
        ⟨"u1", [⟨"p1", 1⟩], ShippingType.pickup, none⟩
        "o1" 1 "ana@mail.com" "Ana").2.pedidos =
      [⟨"o1", "u1", 1000, 0, -9100, "procesando", ShippingType.pickup,
        "Dirección no especificada"⟩] ∧
    CheckoutFacade.applyDiscountsRecursive 1000
        (CheckoutFacade.getAutomaticDiscounts 0 1000 [⟨"p1", 1⟩] 1) + 0 =
      -9100 ∧
    ¬ (0 : ℚ) < -9100 := by
  refine ⟨by decide, ?_, ?_, by norm_num⟩
  · norm_num [CheckoutFacade.process, CheckoutFacade.validateProducts,
      ProductIndex.get, lookupKey, CheckoutFacade.calculateSubtotal,
      CheckoutFacade.getAutomaticDiscounts,
      CheckoutFacade.applyDiscountsRecursive, ShippingStrategyFactory.cost,
      StorePickup.calculateCost, InventoryObserver.updateIndex,
      ProductIndex.update, mapSet]
  · norm_num [CheckoutFacade.getAutomaticDiscounts,
      CheckoutFacade.applyDiscountsRecursive]

/-- Claim C8.  The first-purchase scenario: a cart of 2 units of a product
priced 100000 with stock 10, no prior orders for the customer, standard
shipping, on a day where no other rule triggers.  The result reports
subtotal 200000, exactly the single 10% welcome discount (which takes
the running amount to 180000), and total 185000; afterwards the indexed
stock is 8. -/
theorem c8_first_purchase_scenario :
    (CheckoutFacade.process ⟨[("p1", ⟨"p1", "Zelda", 100000, 10⟩)], [], [], []⟩
        ⟨"u1", [⟨"p1", 2⟩], ShippingType.standard, some "Calle 123"⟩
        "order-1" 3 "ana@mail.com" "Ana").1 =
      { success := true, orderId := some "order-1", subtotal := some 200000,
        descuentos := some [⟨DiscountType.percentage, 10,
          "Bienvenida - Primera compra"⟩],
        total_descuentos := some 20000, costo_envio := some 5000,
        total := some 185000, error := none } ∧
    CheckoutFacade.applyDiscountsRecursive 200000
        [⟨DiscountType.percentage, 10, "Bienvenida - Primera compra"⟩] =
      180000 ∧
    ProductIndex.get
      (CheckoutFacade.process ⟨[("p1", ⟨"p1", "Zelda", 100000, 10⟩)], [], [], []⟩
          ⟨"u1", [⟨"p1", 2⟩], ShippingType.standard, some "Calle 123"⟩
          "order-1" 3 "ana@mail.com" "Ana").2.productIndex "p1" =
      some ⟨"p1", "Zelda", 100000, 8⟩ := by
  refine ⟨?_, ?_, ?_⟩
  · norm_num [CheckoutFacade.process, CheckoutFacade.validateProducts,
      ProductIndex.get, lookupKey, CheckoutFacade.calculateSubtotal,
      CheckoutFacade.getAutomaticDiscounts,
      CheckoutFacade.applyDiscountsRecursive, ShippingStrategyFactory.cost,
      StandardShipping.calculateCost, InventoryObserver.updateIndex,
      ProductIndex.update, mapSet]
  · norm_num [CheckoutFacade.applyDiscountsRecursive]
  · norm_num [CheckoutFacade.process, CheckoutFacade.validateProducts,
      ProductIndex.get, lookupKey, CheckoutFacade.calculateSubtotal,
      CheckoutFacade.getAutomaticDiscounts,
      CheckoutFacade.applyDiscountsRecursive, ShippingStrategyFactory.cost,
      StandardShipping.calculateCost, InventoryObserver.updateIndex,
      ProductIndex.update, mapSet]

theorem mem_keys_of_lookupKey_isSome {K V : Type} [DecidableEq K]
    (l : List (K × V)) (k : K) (h : (lookupKey l k).isSome = true) :
    k ∈ l.map Prod.fst := by
  by_contra hmem
  rw [← lookupKey_eq_none_iff] at hmem
  rw [hmem] at h
  simp at h

theorem mem_keys_get {K V : Type} [DecidableEq K] (c : LRUCache K V)
    (key x : K) (hx : x ∈ (c.get key).2.getKeys) : x ∈ c.getKeys := by
  rcases hl : lookupKey c.cache key with _ | v
  · rw [show (c.get key).2 = c from by simp [LRUCache.get, hl]] at hx
    exact hx
  · have hc : (c.get key).2.cache = eraseKey c.cache key ++ [(key, v)] := by
      simp [LRUCache.get, hl]
    rw [LRUCache.getKeys, hc, List.map_append] at hx
    rcases List.mem_append.mp hx with hm | hm
    · exact keys_eraseKey_subset _ _ _ hm
    · simp at hm
      rw [hm]
      exact mem_keys_of_lookupKey_isSome c.cache key (by simp [hl])

theorem set_cache_split {K V : Type} [DecidableEq K] (c : LRUCache K V)
    (key : K) (v : V) :
    ∃ l, (c.set key v).cache = l ++ [(key, v)] ∧ l.Sublist c.cache := by
  simp only [LRUCache.set]
  by_cases hdup : (lookupKey c.cache key).isSome = true
  · rw [if_pos hdup]
    by_cases hfull : c.capacity ≤ (eraseKey c.cache key).length
    · rw [if_pos hfull]
      exact ⟨_, rfl, (List.tail_sublist _).trans (eraseKey_sublist _ _)⟩
    · rw [if_neg hfull]
      exact ⟨_, rfl, eraseKey_sublist _ _⟩
  · rw [if_neg hdup]
    by_cases hfull : c.capacity ≤ c.cache.length
    · rw [if_pos hfull]
      exact ⟨_, rfl, List.tail_sublist _⟩
    · rw [if_neg hfull]
      exact ⟨_, rfl, List.Sublist.refl _⟩

theorem mem_keys_set {K V : Type} [DecidableEq K] (c : LRUCache K V)
    (key x : K) (v : V) (hx : x ∈ (c.set key v).getKeys) :
    x = key ∨ x ∈ c.getKeys := by
  obtain ⟨l, hl, hsub⟩ := set_cache_split c key v
  rw [LRUCache.getKeys, hl, List.map_append] at hx
  rcases List.mem_append.mp hx with hm | hm
  · exact Or.inr ((hsub.map Prod.fst).subset hm)
  · simp at hm
    exact Or.inl hm

theorem mem_keys_delete {K V : Type} [DecidableEq K] (c : LRUCache K V)
    (key x : K) (hx : x ∈ (c.delete key).2.getKeys) : x ∈ c.getKeys :=
  keys_eraseKey_subset c.cache key x hx

theorem mem_keys_foldl_set (rows : List PedidoRow)
    (c : LRUCache String CachedOrder) (x : String)
    (hx : x ∈ (rows.foldl (fun cc row => cc.set row.id ⟨row, []⟩) c).getKeys) :
    x ∈ c.getKeys ∨ ∃ row ∈ rows, row.id = x := by
  induction rows generalizing c with
  | nil => exact Or.inl hx
  | cons r rest ih =>
    simp only [List.foldl_cons] at hx
    rcases ih _ hx with hm | hm
    · rcases mem_keys_set _ _ _ _ hm with he | he
      · exact Or.inr ⟨r, List.mem_cons_self r rest, he.symm⟩
      · exact Or.inl he
    · obtain ⟨row, hrow, hid⟩ := hm
      exact Or.inr ⟨row, List.mem_cons_of_mem _ hrow, hid⟩

theorem isUuidStr_ne_userOrdersKey (s u : String) (h : isUuidStr s = true) :
    s ≠ userOrdersKey u := by
  intro he
  rw [isUuidStr, Bool.and_eq_true] at h
  obtain ⟨hlen, hall⟩ := h
  rw [List.all_eq_true] at hall
  have hu : 'u' ∈ s.data := by
    rw [he, userOrdersKey]
    rw [String.data_append]
    exact List.mem_append_left _ (by decide)
  exact absurd (hall _ hu) (by decide)

theorem getById_state (s : OrderServiceState) (orderId userId : String)
    (isAdmin : Bool) :
    (OrderService.getById s orderId userId isAdmin).2.pedidos = s.pedidos ∧
    (OrderService.getById s orderId userId isAdmin).2.detalles = s.detalles ∧
    ((OrderService.getById s orderId userId isAdmin).2.orderCache =
        (s.orderCache.get orderId).2 ∨
      ∃ row, s.pedidos.find? (fun p => decide (p.id = orderId)) = some row ∧
        (OrderService.getById s orderId userId isAdmin).2.orderCache =
          (s.orderCache.get orderId).2.set orderId
            ⟨row, s.detalles.filter
              (fun d => decide (d.pedido_id = orderId))⟩) := by
  simp only [OrderService.getById]
  rcases hg : (s.orderCache.get orderId).1 with _ | cached <;>
    rcases hf : s.pedidos.find? (fun p => decide (p.id = orderId)) with _ | row <;>
    simp only [hg, hf] <;>
    (try split_ifs) <;>
    simp [hf]

/-- The cache-key invariant of `OrderService`: every persisted order id
has the `uuidv4()` shape, and every key present in the order cache is
the id of some persisted order. -/
theorem orderService_cache_keys_invariant (s : OrderServiceState)
    (h : OrderService.Reachable s) :
    (∀ row ∈ s.pedidos, isUuidStr row.id = true) ∧
    (∀ k ∈ s.orderCache.getKeys, ∃ row ∈ s.pedidos, row.id = k) := by
  induction h with
  | init pedidos detalles huuid =>
    refine ⟨huuid, ?_⟩
    intro k hk
    simp [LRUCache.getKeys] at hk
  | createStep s row newDetalles huuid hr ih =>
    obtain ⟨hdb, hkeys⟩ := ih
    simp only [OrderService.createApply]
    constructor
    · intro r hrm
      rcases List.mem_append.mp hrm with hm | hm
      · exact hdb r hm
      · simp at hm
        rw [hm]
        exact huuid
    · intro k hk
      have hk' : k ∈ s.orderCache.getKeys := mem_keys_delete _ _ _ hk
      obtain ⟨r, hrm, hrid⟩ := hkeys k hk'
      exact ⟨r, List.mem_append_left _ hrm, hrid⟩
  | getUserOrdersStep s userId hr ih =>
    obtain ⟨hdb, hkeys⟩ := ih
    rcases hg : (s.orderCache.get (userOrdersKey userId)).1 with _ | cached <;>
      simp only [OrderService.getUserOrders, hg]
    · constructor
      · exact hdb
      · intro k hk
        rcases mem_keys_foldl_set _ _ _ hk with hm | hm
        · obtain ⟨r, hrm, hrid⟩ := hkeys k (mem_keys_get _ _ _ hm)
          exact ⟨r, hrm, hrid⟩
        · obtain ⟨r, hrm, hrid⟩ := hm
          exact ⟨r, List.mem_of_mem_filter hrm, hrid⟩
    · constructor
      · exact hdb
      · intro k hk
        exact hkeys k (mem_keys_get _ _ _ hk)
  | getByIdStep s orderId userId isAdmin hr ih =>
    obtain ⟨hdb, hkeys⟩ := ih
    obtain ⟨hp, hd, hc⟩ := getById_state s orderId userId isAdmin
    rw [hp]
    refine ⟨hdb, ?_⟩
    intro k hk
    rcases hc with hc | ⟨row, hf, hc⟩
    · rw [hc] at hk
      exact hkeys k (mem_keys_get _ _ _ hk)
    · rw [hc] at hk
      rcases mem_keys_set _ _ _ _ hk with he | he
      · have hpred := List.find?_some hf
        have hid : row.id = orderId := of_decide_eq_true hpred
        exact ⟨row, List.mem_of_find?_eq_some hf, by rw [hid, he]⟩
      · exact hkeys k (mem_keys_get _ _ _ he)
  | updateStatusStep s orderId nuevoEstado hr ih =>
    obtain ⟨hdb, hkeys⟩ := ih
    rw [OrderService.updateStatusApply]
    split
    · exact ⟨hdb, hkeys⟩
    · rename_i row hf
      split
      · rename_i actual nuevo heq1 heq2
        by_cases hval : Order.esTransicionValida actual nuevo = true
        · rw [if_pos hval]
          constructor
          · intro r' hr'
            obtain ⟨p, hp, he⟩ := List.mem_map.mp hr'
            have hid : r'.id = p.id := by
              rw [← he]
              by_cases hcase : p.id = orderId
              · rw [if_pos hcase]
              · rw [if_neg hcase]
            rw [hid]
            exact hdb p hp
          · intro k hk
            have hk1 : k ∈ (s.orderCache.delete orderId).2.getKeys :=
              mem_keys_delete _ _ _ hk
            have hk2 : k ∈ s.orderCache.getKeys :=
              mem_keys_delete _ _ _ hk1
            obtain ⟨rowk, hrowk, hid⟩ := hkeys k hk2
            refine ⟨(if rowk.id = orderId then
                { rowk with estado := nuevoEstado } else rowk),
              List.mem_map_of_mem _ hrowk, ?_⟩
            by_cases hcase : rowk.id = orderId
            · rw [if_pos hcase]
              exact hid
            · rw [if_neg hcase]
              exact hid
        · rw [if_neg hval]
          exact ⟨hdb, hkeys⟩
      · exact ⟨hdb, hkeys⟩

/-- Claim C10. In every reachable `OrderService` state, the only keys in
the order cache are persisted order ids (written by `getUserOrders`,
which caches each row under `order.id`, and by `getById`); since order
ids are `uuidv4()` strings, no cache key ever has the form
`user_orders_<userId>`; therefore the cache lookup at the start of
`getUserOrders` always misses and its cached branch (which would return
one order as the whole list) is unreachable: the returned records are
always the user's database rows. -/
theorem c10_user_orders_key_never_cached (s : OrderServiceState)
    (h : OrderService.Reachable s) :
    (∀ k ∈ s.orderCache.getKeys, ∃ row ∈ s.pedidos, row.id = k) ∧
    (∀ u k, k ∈ s.orderCache.getKeys → k ≠ userOrdersKey u) ∧
    (∀ u, (s.orderCache.get (userOrdersKey u)).1 = none) ∧
    (∀ u, (OrderService.getUserOrders s u).1 =
      s.pedidos.filter (fun p => decide (p.usuario_id = u))) := by
  obtain ⟨hdb, hkeys⟩ := orderService_cache_keys_invariant s h
  have hne : ∀ u k, k ∈ s.orderCache.getKeys → k ≠ userOrdersKey u := by
    intro u k hk
    obtain ⟨row, hrow, hid⟩ := hkeys k hk
    rw [← hid]
    exact isUuidStr_ne_userOrdersKey row.id u (hdb row hrow)
  have hnone : ∀ u, (s.orderCache.get (userOrdersKey u)).1 = none := by
    intro u
    have hmem : userOrdersKey u ∉ s.orderCache.cache.map Prod.fst := by
      intro hm
      exact hne u (userOrdersKey u) hm rfl
    have hl : lookupKey s.orderCache.cache (userOrdersKey u) = none :=
      (lookupKey_eq_none_iff _ _).mpr hmem
    simp [LRUCache.get, hl]
  refine ⟨hkeys, hne, hnone, ?_⟩
  intro u
  simp only [OrderService.getUserOrders, hnone u]

/-- Witness for C10: starting from a fresh service over one persisted
order (a `uuidv4()` id), `getUserOrders` returns the database rows and
the lookup of `user_orders_u1` misses. -/
theorem c10_user_orders_key_never_cached_witness :
    ((OrderService.getUserOrders
        ⟨⟨[], 50⟩,
          [⟨"0a1b2c3d-0000-4000-8000-000000000000", "u1", 100, 5, 105,
            "procesando", ShippingType.standard, "Calle 1"⟩], []⟩ "u1").1 =
      [⟨"0a1b2c3d-0000-4000-8000-000000000000", "u1", 100, 5, 105,
        "procesando", ShippingType.standard, "Calle 1"⟩]) ∧
    (((⟨⟨[], 50⟩,
        [⟨"0a1b2c3d-0000-4000-8000-000000000000", "u1", 100, 5, 105,
          "procesando", ShippingType.standard, "Calle 1"⟩], []⟩ :
        OrderServiceState).orderCache.get (userOrdersKey "u1")).1 = none) := by
  have h := c10_user_orders_key_never_cached _
    (OrderService.Reachable.init
      [⟨"0a1b2c3d-0000-4000-8000-000000000000", "u1", 100, 5, 105,
        "procesando", ShippingType.standard, "Calle 1"⟩] []
      (by
        intro row hrow
        rcases List.mem_singleton.mp hrow with rfl
        decide))
  refine ⟨?_, h.2.2.1 "u1"⟩
  rw [h.2.2.2 "u1"]
  simp
